import Mathlib

/-!
Verification development for the lasplot well-log plotting server.

The definitions below are a shallow embedding of the Rust sources
(src/main.rs, src/plot.rs, src/las.rs, src/config.rs):

* machine floats (f64) are modelled by exact rationals `ℚ`; where the code
  can observe the IEEE special values (±∞, NaN) we use the explicit sum
  type `F64` below, whose comparison operations follow IEEE semantics
  (NaN compares false with everything, including itself);
* byte buffers are lists of `Nat`, one entry per byte;
* fallible parsing returns `Option`;
* `Vec<Option<f64>>` becomes `List (Option ℚ)`, with `Vec::get(i)` modelled
  by `List.getD i none` (out of range and "present but None" coincide, as
  they do for the `.get(i).and_then(|&d| d)` pattern the code uses).
-/

namespace Lasplot

/-- A pixel colour, `plot.rs`'s `pub type RGBColor = [u8; 3]`, as (r, g, b). -/
abbrev RGBColor := Nat × Nat × Nat

/-! ## BGRA → RGBA pixel-buffer conversion (`plot.rs` lines 14–77) -/

/-- `plot.rs` `convert_bgra_to_rgba_scalar`: walks the source in exact 4-byte
chunks (`chunks_exact(4)`), writing `[src[2], src[1], src[0], src[3]]` for
each pixel; a trailing fragment shorter than 4 bytes is not written. -/
def convert_bgra_to_rgba_scalar : List Nat → List Nat
  | b :: g :: r :: a :: rest => r :: g :: b :: a :: convert_bgra_to_rgba_scalar rest
  | _ => []

/-- The `_mm_shuffle_epi8` application inside `convert_bgra_to_rgba_sse`:
given the 16 loaded bytes, byte `i` of the result is byte `mask[i]` of the
input, with mask `[2,1,0,3, 6,5,4,7, 10,9,8,11, 14,13,12,15]`
(`plot.rs` lines 36–41). -/
def shuffle_epi8_bgra (s : List Nat) : List Nat :=
  [2, 1, 0, 3, 6, 5, 4, 7, 10, 9, 8, 11, 14, 13, 12, 15].map (fun i => s.getD i 0)

/-- `plot.rs` `convert_bgra_to_rgba_sse`: processes `simd_count = (len/4)/4`
full 16-byte blocks with the shuffle, then hands the remaining bytes
(`src[simd_count*16..]`) to the scalar routine.  Since `(len/4)/4 = len/16`
(Nat division), the loop consumes one 16-byte block exactly as long as
16 bytes remain, which is the pattern below. -/
def convert_bgra_to_rgba_sse : List Nat → List Nat
  | x0 :: x1 :: x2 :: x3 :: x4 :: x5 :: x6 :: x7 ::
    x8 :: x9 :: x10 :: x11 :: x12 :: x13 :: x14 :: x15 :: rest =>
      shuffle_epi8_bgra
        [x0, x1, x2, x3, x4, x5, x6, x7, x8, x9, x10, x11, x12, x13, x14, x15] ++
        convert_bgra_to_rgba_sse rest
  | src => convert_bgra_to_rgba_scalar src

/-! ## Hex colour parsing (`plot.rs` lines 79–89) -/

/-- Value of one hexadecimal digit character, as in Rust's
`char::to_digit(16)` used by `u8::from_str_radix(.., 16)`. -/
def hex_digit_val (c : Char) : Option Nat :=
  if '0' ≤ c ∧ c ≤ '9' then some (c.toNat - 48)
  else if 'a' ≤ c ∧ c ≤ 'f' then some (c.toNat - 87)
  else if 'A' ≤ c ∧ c ≤ 'F' then some (c.toNat - 55)
  else none

/-- Rust `u8::from_str_radix(s, 16)`: an optional leading `+` (a `-` is
rejected for unsigned types), then a non-empty run of hex digits; the
accumulated value must fit in `u8`, otherwise the parse errors
(and the caller's `unwrap_or(0)` kicks in). -/
def u8_from_str_radix_16 (s : List Char) : Option Nat :=
  let digits := match s with
    | '+' :: rest => rest
    | other => other
  match digits.mapM hex_digit_val with
  | none => none
  | some vals =>
    if vals.isEmpty then none
    else
      let v := vals.foldl (fun acc d => acc * 16 + d) 0
      if v < 256 then some v else none

/-- `plot.rs` `hex_to_rgb`, restricted to ASCII input: strip every leading
`#` (`trim_start_matches('#')`), and if at least 6 characters remain parse
the three 2-character slices with `from_str_radix(.., 16).unwrap_or(0)`
(each channel falls back to 0 independently); shorter inputs give black.
The Rust code measures and slices *bytes*; on ASCII strings bytes and
characters coincide, so this function is the ASCII specialization of the
byte-faithful `hex_to_rgb_bytes` below (see
`hex_to_rgb_bytes_ascii_literals`).  It is kept in this form for the
colour-assignment pipeline, whose colour strings are ASCII literals.
On non-ASCII input the code behaves differently — see `hex_to_rgb_bytes`. -/
def hex_to_rgb (s : String) : RGBColor :=
  let hex := s.toList.dropWhile (fun c => c = '#')
  if 6 ≤ hex.length then
    ((u8_from_str_radix_16 (hex.take 2)).getD 0,
     (u8_from_str_radix_16 ((hex.drop 2).take 2)).getD 0,
     (u8_from_str_radix_16 ((hex.drop 4).take 2)).getD 0)
  else (0, 0, 0)

/-- ASCII hex digit value of a UTF-8 byte.  Rust's `from_str_radix` walks
the characters of the slice, but a multi-byte UTF-8 character consists
solely of bytes ≥ 0x80, which are never sign or digit characters, so
byte-wise digit checking rejects exactly the same slices. -/
def hex_byte_val (b : Nat) : Option Nat :=
  if 48 ≤ b ∧ b ≤ 57 then some (b - 48)
  else if 97 ≤ b ∧ b ≤ 102 then some (b - 87)
  else if 65 ≤ b ∧ b ≤ 70 then some (b - 55)
  else none

/-- Rust `u8::from_str_radix(slice, 16)` over the slice's UTF-8 bytes: an
optional leading `+` (byte 0x2B; a `-` is rejected for unsigned types),
then a non-empty run of hex digits; the value must fit in `u8`. -/
def u8_from_str_radix_16_bytes (s : List Nat) : Option Nat :=
  let digits := match s with
    | 43 :: rest => rest
    | other => other
  match digits.mapM hex_byte_val with
  | none => none
  | some vals =>
    if vals.isEmpty then none
    else
      let v := vals.foldl (fun acc d => acc * 16 + d) 0
      if v < 256 then some v else none

/-- Rust `str::is_char_boundary` on a UTF-8 byte sequence: index 0, the
end of the string, or any index whose byte is not a continuation byte
(i.e. is `< 0x80` or `≥ 0xC0`). -/
def is_char_boundary (bytes : List Nat) (i : Nat) : Bool :=
  i == 0 || i == bytes.length ||
    (decide (i < bytes.length) &&
      (decide (bytes.getD i 0 < 128) || decide (192 ≤ bytes.getD i 0)))

/-- `plot.rs` `hex_to_rgb`, byte-faithful: the input is the colour string's
UTF-8 bytes.  `hex.len() >= 6` is a *byte* count, and `&hex[0..2]`,
`&hex[2..4]`, `&hex[4..6]` are *byte* slices, which panic when offset 2, 4
or 6 falls inside a multi-byte character; `none` models that panic (which
aborts the request).  Otherwise each 2-byte slice is parsed with
`from_str_radix(.., 16).unwrap_or(0)`, each channel falling back to 0
independently; fewer than 6 bytes give black.  Leading `#` bytes (0x23)
are always whole characters in valid UTF-8, so byte-wise stripping
matches `trim_start_matches('#')`. -/
def hex_to_rgb_bytes (s : List Nat) : Option RGBColor :=
  let hex := s.dropWhile (fun b => b = 35)
  if 6 ≤ hex.length then
    if is_char_boundary hex 2 && is_char_boundary hex 4 && is_char_boundary hex 6 then
      some ((u8_from_str_radix_16_bytes (hex.take 2)).getD 0,
            (u8_from_str_radix_16_bytes ((hex.drop 2).take 2)).getD 0,
            (u8_from_str_radix_16_bytes ((hex.drop 4).take 2)).getD 0)
    else none
  else some (0, 0, 0)

/-- A well-formed hex colour string in the sense of the specification:
optional leading `#`s followed by exactly six hexadecimal digits.  This is
the spec-side notion used to state what a "malformed" colour string is;
it is not part of the Rust code. -/
def is_well_formed_hex_color (s : String) : Bool :=
  let hex := s.toList.dropWhile (fun c => c = '#')
  hex.length = 6 && hex.all (fun c => (hex_digit_val c).isSome)

/-! ## A surrogate for f64 with the IEEE special values -/

/-- An f64 value as observed by the comparisons the code performs: an exact
finite value (modelled by a rational), one of the two infinities, or NaN. -/
inductive F64 where
  | val (q : ℚ)
  | posInf
  | negInf
  | nan
deriving DecidableEq

/-- IEEE `==` on f64: NaN is equal to nothing (including itself); the two
infinities are equal to themselves; finite values compare exactly. -/
def f64_eq : F64 → F64 → Bool
  | .val a, .val b => decide (a = b)
  | .posInf, .posInf => true
  | .negInf, .negInf => true
  | _, _ => false

/-- IEEE `<` on f64 (any comparison involving NaN is false). -/
def f64_lt : F64 → F64 → Bool
  | .nan, _ => false
  | _, .nan => false
  | .negInf, .negInf => false
  | .negInf, _ => true
  | .val _, .negInf => false
  | .val a, .val b => decide (a < b)
  | .val _, .posInf => true
  | .posInf, _ => false

/-- Rust `f64::is_finite`. -/
def f64_is_finite : F64 → Bool
  | .val _ => true
  | _ => false

/-- Rust `f64::is_nan`. -/
def f64_is_nan : F64 → Bool
  | .nan => true
  | _ => false

/-! ## LAS curve extraction (`las.rs` lines 203–219) -/

/-- `las.rs` `LasFile::get_curve_data`: one output entry per data row; a row
shorter than `curve_idx + 1` yields `None`, otherwise the raw value is
`None`-ed out exactly when it `==` the file's null sentinel or is NaN. -/
def get_curve_data (data : List (List F64)) (null_value : F64) (curve_idx : Nat) :
    List (Option F64) :=
  data.map (fun row =>
    if curve_idx < row.length then
      (if f64_eq (row.getD curve_idx (.val 0)) null_value ||
          f64_is_nan (row.getD curve_idx (.val 0)) then none
       else some (row.getD curve_idx (.val 0)))
    else none)

/-! ## Tick layout (`plot.rs` lines 110–150 and 241–301)

The f64 expressions `range.log10().floor()`, `10f64.powf(order)`,
`(x / step).ceil() * step`, `v.round()` are modelled by their exact
counterparts on `ℚ`; at every input considered in the theorems below the
f64 evaluation is exact, so the model agrees with the code byte for byte. -/

/-- Fuelled integer log: `natLog10Aux fuel n` counts how often `n` can be
divided by 10 before dropping below 10. -/
def natLog10Aux : Nat → Nat → Nat
  | 0, _ => 0
  | fuel + 1, n => if n < 10 then 0 else natLog10Aux fuel (n / 10) + 1

/-- `⌊log10 n⌋` for positive naturals (0 for `n = 0`). -/
def natLog10 (n : Nat) : Nat := natLog10Aux n n

/-- Fuelled ceiling log helper. -/
def natClog10Aux : Nat → Nat → Nat
  | 0, _ => 0
  | fuel + 1, n => if n ≤ 1 then 0 else natClog10Aux fuel ((n + 9) / 10) + 1

/-- `⌈log10 n⌉` for positive naturals. -/
def natClog10 (n : Nat) : Nat := natClog10Aux n n

/-- `⌊log10 q⌋` for a positive rational: the unique `z` with
`10^z ≤ q < 10^(z+1)`.  Models the code's `range.log10().floor()`. -/
def floorLog10 (q : ℚ) : ℤ :=
  if 1 ≤ q then (natLog10 ⌊q⌋.toNat : ℤ) else -(natClog10 ⌈q⁻¹⌉.toNat : ℤ)

/-- Rust `f64::round`: round half away from zero. -/
def rustRound (q : ℚ) : ℤ := if 0 ≤ q then ⌊q + 1/2⌋ else -⌊-q + 1/2⌋

/-- Rust's saturating `f64 as u32` cast applied after `.round()`. -/
def round_as_u32 (q : ℚ) : Nat := min (rustRound q).toNat 4294967295

/-- The tick loop `let mut v = first; while v <= max { push v; v += step }`
with exact arithmetic: the values `first + i * step` for
`i = 0, …, ⌊(max − first)/step⌋`. -/
def ticks_from (first step max : ℚ) : List ℚ :=
  if 0 < step ∧ first ≤ max then
    (List.range (⌊(max - first) / step⌋.toNat + 1)).map
      (fun (i : ℕ) => first + (i : ℚ) * step)
  else []

/-- `major_step = 10^order` where `order = floor(log10(range))`
(`plot.rs` lines 246–247). -/
def major_step (a b : ℚ) : ℚ := (10 : ℚ) ^ floorLog10 (b - a)

/-- `minor_step = 10^(order − 1)` (`plot.rs` line 248). -/
def minor_step (a b : ℚ) : ℚ := (10 : ℚ) ^ (floorLog10 (b - a) - 1)

/-- `first_major = (x_min / major_step).ceil() * major_step`
(`plot.rs` line 251). -/
def first_major (a b : ℚ) : ℚ := (⌈a / major_step a b⌉ : ℚ) * major_step a b

/-- First minor-tick candidate, `plot.rs` line 279. -/
def first_minor (a b : ℚ) : ℚ := (⌈a / minor_step a b⌉ : ℚ) * minor_step a b

/-- All values visited by the major-tick `while` loop. -/
def major_tick_values (a b : ℚ) : List ℚ := ticks_from (first_major a b) (major_step a b) b

/-- Major ticks actually drawn by `draw_scales`: the loop values whose
normalized position `t = (v − x_min)/range` lies in `[0, 1]`
(`plot.rs` lines 258–276). -/
def drawn_major_values (a b : ℚ) : List ℚ :=
  (major_tick_values a b).filter
    (fun v => decide (0 ≤ (v - a) / (b - a)) && decide ((v - a) / (b - a) ≤ 1))

/-- The `major_positions` hash set of `draw_scales`: the rounded index
`(major_value / minor_step).round() as i64` of every drawn major tick
(`plot.rs` lines 254, 273). -/
def major_positions (a b : ℚ) : List ℤ :=
  (drawn_major_values a b).map (fun v => rustRound (v / minor_step a b))

/-- All values visited by the minor-tick `while` loop. -/
def minor_tick_values (a b : ℚ) : List ℚ := ticks_from (first_minor a b) (minor_step a b) b

/-- Minor ticks actually drawn by `draw_scales`: candidates whose rounded
index is not a major position and whose `t` lies in `[0, 1]`
(`plot.rs` lines 281–300). -/
def drawn_minor_values (a b : ℚ) : List ℚ :=
  (minor_tick_values a b).filter
    (fun v => !(major_positions a b).contains (rustRound (v / minor_step a b)) &&
              (decide (0 ≤ (v - a) / (b - a)) && decide ((v - a) / (b - a) ≤ 1)))

/-- The per-curve tick emission of `draw_scales` (`plot.rs` lines 241–301):
ticks are computed only when `x_max > x_min && x_max.is_finite() &&
x_min.is_finite()`; otherwise no tick is emitted for the curve.  Returns
(major tick values, minor tick values) actually drawn. -/
def scale_ticks_for_curve (x_min x_max : F64) : List ℚ × List ℚ :=
  if f64_lt x_min x_max && f64_is_finite x_max && f64_is_finite x_min then
    match x_min, x_max with
    | .val a, .val b => (drawn_major_values a b, drawn_minor_values a b)
    | _, _ => ([], [])
  else ([], [])

/-- The per-curve body of `calculate_scale_tick_positions`
(`plot.rs` lines 120–147): same validity guard, then each major loop value
is mapped to the pixel `round(plot_x_start + t * plot_width) as u32` and
kept when it lies inside `[plot_x_start, plot_x_start + plot_width)`,
with `plot_x_start = 100` and `plot_width = width.saturating_sub(100)`. -/
def curve_tick_pixels (width : Nat) (x_min x_max : F64) : List Nat :=
  if f64_lt x_min x_max && f64_is_finite x_max && f64_is_finite x_min then
    match x_min, x_max with
    | .val a, .val b =>
      ((major_tick_values a b).map
          (fun v => round_as_u32 (100 + (v - a) / (b - a) * (width - 100 : Nat)))).filter
        (fun x => decide (100 ≤ x) && decide (x < 100 + (width - 100)))
    | _, _ => []
  else []

/-- `plot.rs` `calculate_scale_tick_positions`: the first
`min(max_scales, curves_data.len(), colors.len(), x_ranges.len())` curves
each contribute their pixel list and colour. -/
def calculate_scale_tick_positions (width max_scales curves_len : Nat)
    (colors : List RGBColor) (x_ranges : List (F64 × F64)) :
    List (List Nat × RGBColor) :=
  let max_curves := min (min (min max_scales curves_len) colors.length) x_ranges.length
  (List.range max_curves).map (fun idx =>
    (curve_tick_pixels width (x_ranges.getD idx (.nan, .nan)).1
        (x_ranges.getD idx (.nan, .nan)).2,
     colors.getD idx (0, 0, 0)))

/-! ## Row pagination (`main.rs` `generate_html`, lines 688–689 and 849–915) -/

/-- `num_rows = (total_steps + html_row_steps - 1) / html_row_steps`
(`main.rs` line 689). -/
def num_rows (total_steps html_row_steps : Nat) : Nat :=
  (total_steps + html_row_steps - 1) / html_row_steps

/-- `start_block_value = row_idx * html_row_steps` (`main.rs` line 852). -/
def start_block_value (row_idx html_row_steps : Nat) : Nat := row_idx * html_row_steps

/-- `end_block_value = (start_block_value + html_row_steps).min(depth_data.len())`
(`main.rs` line 853). -/
def end_block_value (depth_len html_row_steps row_idx : Nat) : Nat :=
  min (row_idx * html_row_steps + html_row_steps) depth_len

/-- `actual_end` (`main.rs` lines 868–883): the last row keeps its end; a
non-last row is widened by one sample exactly when `end_block_value` is in
range and the depth sample there is non-null. -/
def actual_end (depth_data : List (Option ℚ)) (html_row_steps row_idx : Nat) : Nat :=
  let depth_len := depth_data.length
  let e := end_block_value depth_len html_row_steps row_idx
  if row_idx = num_rows depth_len html_row_steps - 1 then e
  else if e < depth_len then
    (if (depth_data.getD e none).isSome then e + 1 else e)
  else e

/-! ## The curve-window walk (`plot.rs` `draw_curves`, lines 318–417) -/

/-- The inner point loop of `draw_curves` (`plot.rs` lines 386–416) for one
curve.  `pt idx value` abstracts the pixel computation and bounds check of
lines 394–404: it returns the integer pixel of the sample at depth-index
`idx` with value `value`, or `none` when the pixel falls outside the
canvas.  Walking the visited indices: an index beyond the curve's data is
skipped with `last_point` unchanged (`continue`, line 390); a null sample
resets `last_point` (line 414); an out-of-bounds pixel neither draws nor
updates `last_point`; an in-bounds pixel draws a segment from `last_point`
when one is held and becomes the new `last_point`. -/
def draw_curve_walk (pt : Nat → ℚ → Option (Nat × Nat)) (data : List (Option ℚ)) :
    List Nat → Option (Nat × Nat) → List ((Nat × Nat) × (Nat × Nat))
  | [], _ => []
  | idx :: rest, last_point =>
    if idx < data.length then
      match data.getD idx none with
      | some value =>
        match pt idx value with
        | some p =>
            (match last_point with
             | some lp => [(lp, p)]
             | none => []) ++ draw_curve_walk pt data rest (some p)
        | none => draw_curve_walk pt data rest last_point
      | none => draw_curve_walk pt data rest none
    else
      draw_curve_walk pt data rest last_point

/-- The `valid_indices` construction of `draw_curves` (`plot.rs` lines
334–360): every index in `[depth_start_idx, min(depth_end_idx, len))` whose
depth sample is non-null, plus — when `depth_end_idx` itself is still in
range — the boundary index `depth_end_idx` if its depth sample is non-null. -/
def window_valid_indices (depth_data : List (Option ℚ)) (depth_start_idx depth_end_idx : Nat) :
    List Nat :=
  ((List.range' depth_start_idx (min depth_end_idx depth_data.length - depth_start_idx)).filter
      (fun i => (depth_data.getD i none).isSome)) ++
    (if depth_end_idx < depth_data.length then
       (if (depth_data.getD depth_end_idx none).isSome then [depth_end_idx] else [])
     else [])

/-- The segments stroked for one curve by `draw_curves` over the window
`[depth_start_idx, depth_end_idx)` (widening included by the caller). -/
def draw_curves_segments (pt : Nat → ℚ → Option (Nat × Nat))
    (data depth_data : List (Option ℚ)) (depth_start_idx depth_end_idx : Nat) :
    List ((Nat × Nat) × (Nat × Nat)) :=
  draw_curve_walk pt data (window_valid_indices depth_data depth_start_idx depth_end_idx) none

/-- Rust's `f64 as u32` cast: truncation toward zero, saturating at the
type's bounds (negative values to 0). -/
def f64_as_u32 (q : ℚ) : Nat := if q ≤ 0 then 0 else min ⌊q⌋.toNat 4294967295

/-- The concrete pixel computation and bounds check of `draw_curves`
(`plot.rs` lines 327–330 and 394–404):
`x = plot_x_start + (value − x_min)/(x_max − x_min) * plot_width` with
`plot_x_start = 100` and `plot_width = config.width`;
`y = plot_y_start + (depth − y_min)/(y_max − y_min) * plot_height` with
`plot_y_start = 0` and `plot_height = config.height`; both cast `as u32`;
the point is used only when `x_int < width && y_int < height`.
`depth_at idx` supplies the depth value at the sample's index (the code
reads `depth_slice[slice_idx]`, the depth at `data_idx`, which is valid at
every visited index). -/
def draw_curves_pt (width height : Nat) (x_min x_max y_min y_max : ℚ)
    (depth_at : Nat → ℚ) (idx : Nat) (value : ℚ) : Option (Nat × Nat) :=
  let x := 100 + (value - x_min) / (x_max - x_min) * (width : ℚ)
  let y := 0 + (depth_at idx - y_min) / (y_max - y_min) * (height : ℚ)
  if f64_as_u32 x < width ∧ f64_as_u32 y < height then some (f64_as_u32 x, f64_as_u32 y)
  else none

/-- The `depth_slice` collected by `draw_curves` (`plot.rs` lines 334–360):
the non-null depth values of the window, in index order — one per entry of
`window_valid_indices`. -/
def window_depth_slice (depth_data : List (Option ℚ)) (s e : Nat) : List ℚ :=
  (window_valid_indices depth_data s e).filterMap (fun i => depth_data.getD i none)

/-- The window's own depth range (`plot.rs` lines 337–363): fold min/max
over the collected depth slice; both bounds fall back to the configured
global range exactly when the window has no valid depth sample. -/
def window_y_range (depth_data : List (Option ℚ)) (s e : Nat) (y_range : ℚ × ℚ) : ℚ × ℚ :=
  match window_depth_slice depth_data s e with
  | [] => y_range
  | d :: rest => (rest.foldl min d, rest.foldl max d)

/-- One curve of `draw_curves` over the window `[s, e)` with the concrete
pixel map: the walk of the window's valid indices using `draw_curves_pt`
over the curve's value range and the window's computed depth range.  The
`(depth_data.getD i none).getD 0` fallback is never reached at a visited
index (those have non-null depth). -/
def draw_one_curve (width height : Nat) (x_min x_max : ℚ) (y_range : ℚ × ℚ)
    (data depth_data : List (Option ℚ)) (s e : Nat) : List ((Nat × Nat) × (Nat × Nat)) :=
  draw_curves_segments
    (draw_curves_pt width height x_min x_max
      (window_y_range depth_data s e y_range).1 (window_y_range depth_data s e y_range).2
      (fun i => (depth_data.getD i none).getD 0))
    data depth_data s e

/-! ## Row label (`main.rs` `generate_html_row`, lines 635–637) -/

/-- `start_depth = depth_data.get(start_block_value).and_then(|&d| d)
.unwrap_or(depth_min)`: the depth at the block's first index, with the
global depth minimum as fallback. -/
def row_start_depth (depth_data : List (Option ℚ)) (start_block_value : Nat)
    (depth_min : ℚ) : ℚ :=
  (depth_data.getD start_block_value none).getD depth_min

/-- The label the specification describes: the first valid (non-null) depth
value among the samples of the block's window `[s, e)`.  This is the
spec-side definition used to compare against `row_start_depth`; it is not
part of the Rust code. -/
def spec_first_valid_depth (depth_data : List (Option ℚ)) (s e : Nat) : Option ℚ :=
  ((List.range' s (e - s)).filterMap (fun i => depth_data.getD i none)).head?

/-! ## Colour assignment (`main.rs` `handle_request`, lines 466–553)

`DefaultHasher` (SipHash-1-3) is abstracted as an arbitrary function
`hash : Nat → String → Nat` of the hashed pair `(idx, mnemonic)`; both
loops of the code call it on the same pair, which is all the claims use.
`las_file.get_curve_stats(idx)` is passed in as `stats`. -/

/-- Digit of `format!("{:02X}", ..)`. -/
def hex_digit_char (n : Nat) : Char :=
  if n < 10 then Char.ofNat (48 + n) else Char.ofNat (55 + n)

/-- `format!("{:02X}", n)` for `n ≤ 255`. -/
def to_hex_2 (n : Nat) : String :=
  String.mk [hex_digit_char (n / 16 % 16), hex_digit_char (n % 16)]

/-- The fallback colour generation (`main.rs` lines 489–504 and 537–550):
hash the pair, take the three low bytes, clamp each to a minimum of 50,
format as 6 uppercase hex digits. -/
def gen_hex_color (hash : Nat → String → Nat) (idx : Nat) (name : String) : String :=
  let rng_seed := hash idx name
  let r := max (rng_seed % 256) 50
  let g := max (rng_seed / 256 % 256) 50
  let b := max (rng_seed / 65536 % 256) 50
  to_hex_2 r ++ to_hex_2 g ++ to_hex_2 b

/-- The first colour loop (`main.rs` lines 475–509): iterate all curves,
skip the main parameter, skip curves without stats; each kept curve gets
`color_hex_strings[color_idx]` if that exists (`color_idx` = number of
curves kept so far) and otherwise appends a generated colour to both lists.
Returns (`color_hex_strings`, `plot_colors`). -/
def build_plot_colors (hash : Nat → String → Nat) (main_param_idx : Nat)
    (curves : List String) (stats : Nat → Option (ℚ × ℚ)) (colors0 : List String) :
    List String × List RGBColor :=
  curves.enum.foldl
    (fun acc p =>
      if p.1 = main_param_idx then acc
      else
        match stats p.1 with
        | none => acc
        | some _ =>
          if acc.2.length < acc.1.length then
            (acc.1, acc.2 ++ [hex_to_rgb (acc.1.getD acc.2.length "")])
          else
            (acc.1 ++ [gen_hex_color hash p.1 p.2],
             acc.2 ++ [hex_to_rgb (gen_hex_color hash p.1 p.2)]))
    (colors0, [])

/-- The second colour loop (`main.rs` lines 526–553): iterate all curves,
skip only the main parameter (note: no stats filter), assign
`color_hex_strings[color_idx]` when in range (incrementing `color_idx`
only in that branch) and a freshly generated colour otherwise.  The
`HashMap<usize, String>` is modelled as an association list keyed by the
distinct curve indices. -/
def build_curve_to_color (hash : Nat → String → Nat) (main_param_idx : Nat)
    (curves : List String) (color_hex_strings : List String) : List (Nat × String) :=
  (curves.enum.foldl
    (fun (acc : List (Nat × String) × Nat) p =>
      if p.1 = main_param_idx then acc
      else if acc.2 < color_hex_strings.length then
        (acc.1 ++ [(p.1, color_hex_strings.getD acc.2 "")], acc.2 + 1)
      else
        (acc.1 ++ [(p.1, gen_hex_color hash p.1 p.2)], acc.2))
    ([], 0)).1

/-! ## Bounded-concurrency ordered emission (`main.rs` lines 849–922)

Modelled from the spec: the row stream is built with the external library
combinator `futures::stream::StreamExt::buffered(2)` (`main.rs` line 918),
whose code is not part of this repository.  Per the specification (§4.4
step 4, §5 "Ordering guarantee") it is a bounded-concurrency ordered
pipeline: up to 2 row futures run at once, a completion may arrive for any
running future (the schedule below picks which), and a result is emitted
only when it is the front of the FIFO of started futures. -/

/-- State of the ordered buffer: index of the next row future to start,
the FIFO of started futures (row index, completed?), and the emitted rows. -/
structure BufState where
  nextStart : Nat
  buffer : List (Nat × Bool)
  output : List Nat
deriving DecidableEq

/-- Start row futures in row order until the buffer holds `width` of them
or no rows remain. -/
def fill_buf (n width : Nat) (s : BufState) : BufState :=
  let t := min (width - s.buffer.length) (n - s.nextStart)
  { nextStart := s.nextStart + t
    buffer := s.buffer ++ (List.range' s.nextStart t).map (fun i => (i, false))
    output := s.output }

/-- Emit from the front of the FIFO while the front future is completed. -/
def flush_buf : List (Nat × Bool) → List Nat → List (Nat × Bool) × List Nat
  | (i, true) :: rest, out => flush_buf rest (out ++ [i])
  | buf, out => (buf, out)

/-- The scheduler completes the `j`-th buffered future (no-op when `j` is
out of range). -/
def mark_done : List (Nat × Bool) → Nat → List (Nat × Bool)
  | [], _ => []
  | e :: rest, 0 => (e.1, true) :: rest
  | e :: rest, j + 1 => e :: mark_done rest j

/-- One scheduler step: some running future completes, then the buffer is
flushed in order and refilled. -/
def step_buf (n width : Nat) (s : BufState) (j : Nat) : BufState :=
  let fl := flush_buf (mark_done s.buffer j) s.output
  fill_buf n width { nextStart := s.nextStart, buffer := fl.1, output := fl.2 }

/-- Run the `buffered(2)` pipeline over `n` rows under an arbitrary
completion schedule. -/
def run_buffered (n : Nat) (sched : List Nat) : BufState :=
  sched.foldl (step_buf n 2) (fill_buf n 2 ⟨0, [], []⟩)

/-- The invariant tying the machine to ordered emission: the output is an
initial run of row indices, the buffer holds the immediately following
indices in order, and `nextStart` continues from there, never past `n`. -/
def BufInv (n : Nat) (s : BufState) : Prop :=
  s.output = List.range s.output.length ∧
  s.buffer.map Prod.fst = List.range' s.output.length s.buffer.length ∧
  s.nextStart = s.output.length + s.buffer.length ∧
  s.nextStart ≤ n

/-! # Theorems -/

/-- Helper for C5: the SSE path agrees with the scalar path on every input
(the claims' multiple-of-4 restriction is not even needed). -/
theorem convert_sse_eq_scalar (src : List Nat) :
    convert_bgra_to_rgba_sse src = convert_bgra_to_rgba_scalar src := by
  induction src using convert_bgra_to_rgba_sse.induct with
  | case1 x0 x1 x2 x3 x4 x5 x6 x7 x8 x9 x10 x11 x12 x13 x14 x15 rest ih =>
      simp [convert_bgra_to_rgba_sse, shuffle_epi8_bgra, convert_bgra_to_rgba_scalar, ih]
  | case2 src h =>
      rcases src with _ | ⟨a, _ | ⟨b, _ | ⟨c, _ | ⟨d, rest⟩⟩⟩⟩ <;>
        simp_all [convert_bgra_to_rgba_sse, convert_bgra_to_rgba_scalar]

/-- C5: for every input pixel buffer whose length is a multiple of 4, the
SIMD BGRA→RGBA conversion path produces output byte-for-byte identical to
the scalar fallback — both compute `dst = [src[2], src[1], src[0], src[3]]`
per pixel, including for the remainder pixels after the 16-byte blocks. -/
theorem C5_sse_refines_scalar (src : List Nat) (_h : src.length % 4 = 0) :
    convert_bgra_to_rgba_sse src = convert_bgra_to_rgba_scalar src :=
  convert_sse_eq_scalar src

/-- Witness for C5 at a 20-byte buffer (one full 16-byte SIMD block plus a
4-byte scalar remainder). -/
theorem C5_sse_refines_scalar_witness :
    [0, 1, 2, 3, 10, 11, 12, 13, 20, 21, 22, 23, 30, 31, 32, 33, 40, 41, 42, 43].length % 4
        = 0 ∧
    convert_bgra_to_rgba_sse
        [0, 1, 2, 3, 10, 11, 12, 13, 20, 21, 22, 23, 30, 31, 32, 33, 40, 41, 42, 43] =
      convert_bgra_to_rgba_scalar
        [0, 1, 2, 3, 10, 11, 12, 13, 20, 21, 22, 23, 30, 31, 32, 33, 40, 41, 42, 43] :=
  ⟨by decide,
   C5_sse_refines_scalar
     [0, 1, 2, 3, 10, 11, 12, 13, 20, 21, 22, 23, 30, 31, 32, 33, 40, 41, 42, 43]
     (by decide)⟩

/-- Helper: `getD` through a `map`, at an in-range index. -/
theorem getD_map_of_lt {α β : Type} (f : α → β) (l : List α) (i : Nat) (d : β) (d' : α)
    (h : i < l.length) : (l.map f).getD i d = f (l.getD i d') := by
  induction l generalizing i with
  | nil => simp at h
  | cons a t ih =>
      cases i with
      | zero => simp
      | succ i => simp only [List.map_cons, List.getD_cons_succ]; exact ih i (by simpa using h)

/-- C10: `get_curve_data` is total and returns exactly one entry per data
row; an entry is `none` exactly when the row has fewer than `curve_idx + 1`
values, or the raw value `==` the file's null sentinel, or the raw value is
NaN.  In particular a short row yields `none` rather than a fault. -/
theorem C10_get_curve_data_total (data : List (List F64)) (null_value : F64) (curve_idx : Nat) :
    (get_curve_data data null_value curve_idx).length = data.length ∧
    ∀ i, i < data.length →
      ((get_curve_data data null_value curve_idx).getD i none = none ↔
        ((data.getD i []).length ≤ curve_idx ∨
         f64_eq ((data.getD i []).getD curve_idx (.val 0)) null_value = true ∨
         f64_is_nan ((data.getD i []).getD curve_idx (.val 0)) = true)) := by
  constructor
  · simp [get_curve_data]
  · intro i hi
    rw [get_curve_data, getD_map_of_lt _ _ _ _ [] hi]
    by_cases hlen : curve_idx < (data.getD i []).length
    · rw [if_pos hlen]
      by_cases hnull :
          f64_eq ((data.getD i []).getD curve_idx (.val 0)) null_value = true ∨
          f64_is_nan ((data.getD i []).getD curve_idx (.val 0)) = true
      · rw [if_pos (by simpa [Bool.or_eq_true] using hnull)]
        exact iff_of_true rfl (Or.inr hnull)
      · rw [if_neg (by simpa [Bool.or_eq_true] using hnull)]
        push_neg at hnull
        refine iff_of_false (by simp) ?_
        rintro (h | h | h)
        · omega
        · exact absurd h hnull.1
        · exact absurd h hnull.2
    · rw [if_neg hlen]
      exact iff_of_true rfl (Or.inl (by omega))

/-- Witness for C10: a dataset with a normal row, a short row, a NaN row and
a null-sentinel row, read at curve index 1 and row 1 (the short row). -/
theorem C10_get_curve_data_total_witness :
    (1 < ([[F64.val 1, F64.val 2], [F64.val 1], [F64.val 1, F64.nan],
           [F64.val 1, F64.val 5]] : List (List F64)).length) ∧
    ((get_curve_data
          [[F64.val 1, F64.val 2], [F64.val 1], [F64.val 1, F64.nan], [F64.val 1, F64.val 5]]
          (F64.val 5) 1).getD 1 none = none ↔
      ((([[F64.val 1, F64.val 2], [F64.val 1], [F64.val 1, F64.nan],
          [F64.val 1, F64.val 5]] : List (List F64)).getD 1 []).length ≤ 1 ∨
       f64_eq ((([[F64.val 1, F64.val 2], [F64.val 1], [F64.val 1, F64.nan],
          [F64.val 1, F64.val 5]] : List (List F64)).getD 1 []).getD 1 (.val 0)) (F64.val 5)
          = true ∨
       f64_is_nan ((([[F64.val 1, F64.val 2], [F64.val 1], [F64.val 1, F64.nan],
          [F64.val 1, F64.val 5]] : List (List F64)).getD 1 []).getD 1 (.val 0)) = true)) :=
  ⟨by decide,
   (C10_get_curve_data_total
       [[F64.val 1, F64.val 2], [F64.val 1], [F64.val 1, F64.nan], [F64.val 1, F64.val 5]]
       (F64.val 5) 1).2 1 (by decide)⟩

/-- Helper for C8: the byte-faithful model agrees with the ASCII
specialization `hex_to_rgb` at ASCII colour strings — here the literals
used by the colour-assignment theorems ("FF0000" is `[70,70,48,48,48,48]`,
"00FF00" is `[48,48,70,70,48,48]`, "bad" is `[98,97,100]`). -/
theorem hex_to_rgb_bytes_ascii_literals :
    hex_to_rgb_bytes [70, 70, 48, 48, 48, 48] = some (hex_to_rgb "FF0000") ∧
    hex_to_rgb_bytes [48, 48, 70, 70, 48, 48] = some (hex_to_rgb "00FF00") ∧
    hex_to_rgb_bytes [98, 97, 100] = some (hex_to_rgb "bad") := by decide

/-- C8 counterexample: "for every unknown or malformed color string the
resolver falls back to black (0, 0, 0) rather than failing the request"
fails twice on the code's byte-level behaviour.  `[88, 88, 49, 49, 50, 50]`
is the UTF-8 of the malformed string "XX1122": only the unparseable red
channel falls back to 0, giving (0, 17, 34), not black.
`[226, 130, 172, 226, 130, 172]` is the UTF-8 of "€€" (6 bytes): byte
offset 2 falls inside the first `€`, so the slice `&hex[0..2]` panics —
the request fails instead of falling back to black. -/
theorem C8_black_fallback_counterexample :
    hex_to_rgb_bytes [88, 88, 49, 49, 50, 50] = some (0, 17, 34) ∧
    hex_to_rgb_bytes [88, 88, 49, 49, 50, 50] ≠ some (0, 0, 0) ∧
    is_well_formed_hex_color "XX1122" = false ∧
    hex_to_rgb_bytes [226, 130, 172, 226, 130, 172] = none ∧
    is_well_formed_hex_color "€€" = false := by decide

/-- C8 (amended): `hex_to_rgb("FF0000") = (255, 0, 0)` and
`hex_to_rgb("bad") = (0, 0, 0)`; a colour string whose `#`-stripped form
has fewer than 6 *bytes* yields black; with at least 6 bytes, if byte
offsets 2, 4 and 6 all fall on character boundaries the three 2-byte
channel slices are parsed with each unparseable channel falling back to 0
individually (so a partially parseable malformed string may be non-black);
and if one of those offsets falls inside a multi-byte character the byte
slicing panics and the request fails rather than falling back to black. -/
theorem C8_black_fallback_amended :
    hex_to_rgb_bytes [70, 70, 48, 48, 48, 48] = some (255, 0, 0) ∧
    hex_to_rgb_bytes [98, 97, 100] = some (0, 0, 0) ∧
    (∀ s : List Nat, (s.dropWhile (fun b => b = 35)).length < 6 →
        hex_to_rgb_bytes s = some (0, 0, 0)) ∧
    (∀ s : List Nat, 6 ≤ (s.dropWhile (fun b => b = 35)).length →
        (is_char_boundary (s.dropWhile (fun b => b = 35)) 2 &&
         is_char_boundary (s.dropWhile (fun b => b = 35)) 4 &&
         is_char_boundary (s.dropWhile (fun b => b = 35)) 6) = true →
        hex_to_rgb_bytes s =
          some
            ((u8_from_str_radix_16_bytes
                ((s.dropWhile (fun b => b = 35)).take 2)).getD 0,
             (u8_from_str_radix_16_bytes
                (((s.dropWhile (fun b => b = 35)).drop 2).take 2)).getD 0,
             (u8_from_str_radix_16_bytes
                (((s.dropWhile (fun b => b = 35)).drop 4).take 2)).getD 0)) ∧
    (∀ s : List Nat, 6 ≤ (s.dropWhile (fun b => b = 35)).length →
        (is_char_boundary (s.dropWhile (fun b => b = 35)) 2 &&
         is_char_boundary (s.dropWhile (fun b => b = 35)) 4 &&
         is_char_boundary (s.dropWhile (fun b => b = 35)) 6) = false →
        hex_to_rgb_bytes s = none) := by
  refine ⟨by decide, by decide, ?_, ?_, ?_⟩
  · intro s h
    simp only [hex_to_rgb_bytes]
    rw [if_neg (by omega)]
  · intro s h hb
    simp only [hex_to_rgb_bytes]
    rw [if_pos h, if_pos hb]
  · intro s h hb
    simp only [hex_to_rgb_bytes]
    rw [if_pos h, if_neg (by simp [hb])]

/-- Witness for C8 (amended) at the bytes of "ab" (short, black), of
"112233" (fully parsed channel-wise) and of "€€" (panic). -/
theorem C8_black_fallback_amended_witness :
    ([97, 98].dropWhile (fun b => b = 35)).length < 6 ∧
    hex_to_rgb_bytes [97, 98] = some (0, 0, 0) ∧
    6 ≤ ([49, 49, 50, 50, 51, 51].dropWhile (fun b => b = 35)).length ∧
    hex_to_rgb_bytes [49, 49, 50, 50, 51, 51] =
      some
        ((u8_from_str_radix_16_bytes
            (([49, 49, 50, 50, 51, 51].dropWhile (fun b => b = 35)).take 2)).getD 0,
         (u8_from_str_radix_16_bytes
            ((([49, 49, 50, 50, 51, 51].dropWhile (fun b => b = 35)).drop 2).take 2)).getD 0,
         (u8_from_str_radix_16_bytes
            ((([49, 49, 50, 50, 51, 51].dropWhile (fun b => b = 35)).drop 4).take 2)).getD 0) ∧
    6 ≤ ([226, 130, 172, 226, 130, 172].dropWhile (fun b => b = 35)).length ∧
    hex_to_rgb_bytes [226, 130, 172, 226, 130, 172] = none :=
  ⟨by decide, C8_black_fallback_amended.2.2.1 [97, 98] (by decide), by decide,
   C8_black_fallback_amended.2.2.2.1 [49, 49, 50, 50, 51, 51] (by decide) (by decide),
   by decide,
   C8_black_fallback_amended.2.2.2.2 [226, 130, 172, 226, 130, 172] (by decide) (by decide)⟩

/-- C7 counterexample: for the block window `[0, 2)` over depth data
`[none, some 5]` with global `depth_min = 0`, the emitted label is the
fallback 0, while the first valid depth value in the window is 5 — so
"the depth label is the first valid depth value among the samples in that
block's window" is false as stated. -/
theorem C7_first_valid_label_counterexample :
    row_start_depth [none, some 5] 0 0 = 0 ∧
    spec_first_valid_depth [none, some 5] 0 2 = some (5 : ℚ) ∧
    some (row_start_depth [none, some 5] 0 0) ≠ spec_first_valid_depth [none, some 5] 0 2 := by
  decide

/-- C7 (amended): the emitted label is the depth value at the block's
*first* index when that sample is valid — in which case it is indeed the
first valid depth of the window — and otherwise it falls back to the
global `depth_min`, even when a later sample in the window is valid. -/
theorem C7_first_valid_label_amended (depth_data : List (Option ℚ)) (s e : Nat)
    (depth_min : ℚ) :
    (∀ v, depth_data.getD s none = some v →
        row_start_depth depth_data s depth_min = v ∧
        (s < e → spec_first_valid_depth depth_data s e = some v)) ∧
    (depth_data.getD s none = none → row_start_depth depth_data s depth_min = depth_min) := by
  constructor
  · intro v hv
    constructor
    · rw [row_start_depth, hv]
      rfl
    · intro hse
      rw [spec_first_valid_depth, show e - s = (e - s - 1) + 1 from by omega,
        List.range'_succ]
      have hv' : depth_data[s]?.getD none = some v := by
        simpa [List.getD] using hv
      simp [List.findSome?_cons, hv']
  · intro hv
    rw [row_start_depth, hv]
    rfl

/-- Witness for C7 (amended) on depth data `[some 7]`, window `[0, 1)`. -/
theorem C7_first_valid_label_amended_witness :
    ([some (7 : ℚ)].getD 0 none = some 7) ∧
    row_start_depth [some 7] 0 0 = 7 ∧
    spec_first_valid_depth [some 7] 0 1 = some 7 :=
  ⟨by decide,
   ((C7_first_valid_label_amended [some 7] 0 1 0).1 7 (by decide)).1,
   ((C7_first_valid_label_amended [some 7] 0 1 0).1 7 (by decide)).2 (by decide)⟩

/-- Helper for C2: a visited index holding a null sample splits the walk —
everything after it restarts with no carried point, so no segment can span
the null. -/
theorem draw_curve_walk_break (pt : Nat → ℚ → Option (Nat × Nat))
    (data : List (Option ℚ)) (j : Nat) (hj : j < data.length)
    (hnull : data.getD j none = none) :
    ∀ (l1 l2 : List Nat) (last_point : Option (Nat × Nat)),
      draw_curve_walk pt data (l1 ++ j :: l2) last_point =
        draw_curve_walk pt data l1 last_point ++ draw_curve_walk pt data l2 none := by
  intro l1
  induction l1 with
  | nil =>
      intro l2 last_point
      simp only [List.nil_append, draw_curve_walk, if_pos hj, hnull]
  | cons a t ih =>
      intro l2 last_point
      simp only [List.cons_append, draw_curve_walk]
      by_cases ha : a < data.length
      · rw [if_pos ha, if_pos ha]
        cases hv : data.getD a none with
        | none => dsimp only; exact ih l2 none
        | some value =>
            dsimp only
            cases hp : pt a value with
            | none => exact ih l2 last_point
            | some p =>
                dsimp only
                cases last_point with
                | none => simpa using ih l2 (some p)
                | some lp => simpa using ih l2 (some p)
      · rw [if_neg ha, if_neg ha]
        exact ih l2 last_point

/-- Helper for C2: the window walk splits at any visited index holding a
null curve sample, for an arbitrary pixel map `pt`. -/
theorem draw_curves_segments_break (pt : Nat → ℚ → Option (Nat × Nat))
    (data depth_data : List (Option ℚ)) (s e j : Nat)
    (hs : s ≤ j) (hje : j < min e depth_data.length)
    (hdepth : (depth_data.getD j none).isSome = true)
    (hjd : j < data.length) (hnull : data.getD j none = none) :
    draw_curves_segments pt data depth_data s e =
      draw_curve_walk pt data
        ((List.range' s (j - s)).filter (fun i => (depth_data.getD i none).isSome)) none ++
      draw_curve_walk pt data
        (((List.range' (j + 1) (min e depth_data.length - (j + 1))).filter
            (fun i => (depth_data.getD i none).isSome)) ++
          (if e < depth_data.length then
             (if (depth_data.getD e none).isSome then [e] else [])
           else [])) none := by
  have hsplit : List.range' s (min e depth_data.length - s) =
      List.range' s (j - s) ++ j :: List.range' (j + 1) (min e depth_data.length - (j + 1)) := by
    have h1 := List.range'_append s (j - s) (min e depth_data.length - j) 1
    rw [show s + 1 * (j - s) = j from by omega] at h1
    rw [show min e depth_data.length - s = (min e depth_data.length - j) + (j - s) from by
      omega, ← h1]
    rw [show min e depth_data.length - j = (min e depth_data.length - (j + 1)) + 1 from by
      omega, List.range'_succ]
  rw [draw_curves_segments, window_valid_indices, hsplit, List.filter_append,
    List.filter_cons_of_pos (by simpa using hdepth), List.append_assoc, List.cons_append,
    draw_curve_walk_break pt data j hjd hnull]

/-- C2 counterexample at a fully concrete, pipeline-consistent input.
Config: width 400, height 200 (block height `(1+4)*40` with
`html_row_steps = 4`, `pixels_per_step = 40`).  Depth curve
`[some 0, none, some 1, some 2, some 4]` (so the global depth range, the
`y_range` argument, is its stats `(0, 4)`); plotted curve
`[some 1, none, some 2, none, some 9]` (so its `x_range` is its stats
`(1, 9)`); window = row block 0 of `html_row_steps = 4`, widened to
`[0, 5)` since `depth[4]` is non-null.  The curve's null sample at index 1
lies strictly between the valid samples at indices 0 and 2, the depth is
null at index 1 too, so `valid_indices = [0, 2, 3, 4]` skips it, and the
code draws exactly one segment `(100, 0) – (150, 50)` connecting the
in-bounds pixels of samples 0 and 2 — one continuous segment spanning the
gap, not two disjoint polylines.  (Every f64 step is exact here, so the ℚ
evaluation is the code's.) -/
theorem C2_null_gap_counterexample :
    draw_one_curve 400 200 1 9 (0, 4) [some 1, none, some 2, none, some 9]
        [some 0, none, some 1, some 2, some 4] 0 5 = [((100, 0), (150, 50))] ∧
    [some (1 : ℚ), none, some 2, none, some 9].getD 1 none = none ∧
    ([some (1 : ℚ), none, some 2, none, some 9].getD 0 none).isSome = true ∧
    ([some (1 : ℚ), none, some 2, none, some 9].getD 2 none).isSome = true := by
  refine ⟨?_, by decide, by decide, by decide⟩
  have hp0 : draw_curves_pt 400 200 1 9 0 4
      (fun i =>
        (([some (0 : ℚ), none, some 1, some 2, some 4] : List (Option ℚ)).getD i none).getD 0)
      0 1 = some (100, 0) := by
    norm_num [draw_curves_pt, f64_as_u32, List.getD_cons_zero, List.getD_cons_succ,
      Option.getD_some, Option.getD_none, Int.toNat_ofNat]
    all_goals decide
  have hp2 : draw_curves_pt 400 200 1 9 0 4
      (fun i =>
        (([some (0 : ℚ), none, some 1, some 2, some 4] : List (Option ℚ)).getD i none).getD 0)
      2 2 = some (150, 50) := by
    norm_num [draw_curves_pt, f64_as_u32, List.getD_cons_zero, List.getD_cons_succ,
      Option.getD_some, Option.getD_none, Int.toNat_ofNat]
    all_goals decide
  have hp4 : draw_curves_pt 400 200 1 9 0 4
      (fun i =>
        (([some (0 : ℚ), none, some 1, some 2, some 4] : List (Option ℚ)).getD i none).getD 0)
      4 9 = none := by
    norm_num [draw_curves_pt, f64_as_u32, List.getD_cons_zero, List.getD_cons_succ,
      Option.getD_some, Option.getD_none, Int.toNat_ofNat]
  have hyr : window_y_range [some (0 : ℚ), none, some 1, some 2, some 4] 0 5 (0, 4)
      = (0, 4) := by decide
  have hvi : window_valid_indices [some (0 : ℚ), none, some 1, some 2, some 4] 0 5
      = [0, 2, 3, 4] := by decide
  rw [draw_one_curve, draw_curves_segments, hyr, hvi]
  have hd0 : ([some (1 : ℚ), none, some 2, none, some 9] : List (Option ℚ)).getD 0 none
      = some 1 := by decide
  have hd2 : ([some (1 : ℚ), none, some 2, none, some 9] : List (Option ℚ)).getD 2 none
      = some 2 := by decide
  have hd3 : ([some (1 : ℚ), none, some 2, none, some 9] : List (Option ℚ)).getD 3 none
      = none := by decide
  have hd4 : ([some (1 : ℚ), none, some 2, none, some 9] : List (Option ℚ)).getD 4 none
      = some 9 := by decide
  simp only [draw_curve_walk, hd0, hd2, hd3, hd4, hp0, hp2, hp4, List.length_cons,
    List.length_nil]
  norm_num

/-- C2 (amended): when the null curve sample sits at an index whose *depth*
sample is valid (so the index is visited by the walk), the polyline is
broken there: the emitted segments — under the code's own pixel map
`draw_curves_pt` over the curve's range and the window's depth range — are
exactly the walk of the pre-null indices followed by the walk of the
post-null indices restarted with no carried point, so no segment connects
a point before the null to one after it and the gap is never interpolated.
(If the depth sample at that index is null, the index is skipped and the
surrounding points may be connected, as the counterexample shows.) -/
theorem C2_null_gap_amended (width height : Nat) (x_min x_max : ℚ) (y_range : ℚ × ℚ)
    (data depth_data : List (Option ℚ)) (s e j : Nat)
    (hs : s ≤ j) (hje : j < min e depth_data.length)
    (hdepth : (depth_data.getD j none).isSome = true)
    (hjd : j < data.length) (hnull : data.getD j none = none) :
    draw_one_curve width height x_min x_max y_range data depth_data s e =
      draw_curve_walk
        (draw_curves_pt width height x_min x_max
          (window_y_range depth_data s e y_range).1 (window_y_range depth_data s e y_range).2
          (fun i => (depth_data.getD i none).getD 0)) data
        ((List.range' s (j - s)).filter (fun i => (depth_data.getD i none).isSome)) none ++
      draw_curve_walk
        (draw_curves_pt width height x_min x_max
          (window_y_range depth_data s e y_range).1 (window_y_range depth_data s e y_range).2
          (fun i => (depth_data.getD i none).getD 0)) data
        (((List.range' (j + 1) (min e depth_data.length - (j + 1))).filter
            (fun i => (depth_data.getD i none).isSome)) ++
          (if e < depth_data.length then
             (if (depth_data.getD e none).isSome then [e] else [])
           else [])) none := by
  rw [draw_one_curve]
  exact draw_curves_segments_break _ data depth_data s e j hs hje hdepth hjd hnull

/-- Witness for C2 (amended): same configuration as the counterexample but
with the depth valid at index 1, so the curve's null at index 1 is visited
and splits the walk. -/
theorem C2_null_gap_amended_witness :
    (0 ≤ 1 ∧
     1 < min 5 ([some (0 : ℚ), some 1, some 2, some 3, some 4] : List (Option ℚ)).length ∧
     (([some (0 : ℚ), some 1, some 2, some 3, some 4] : List (Option ℚ)).getD 1 none).isSome
        = true ∧
     1 < ([some (1 : ℚ), none, some 2, none, some 9] : List (Option ℚ)).length ∧
     ([some (1 : ℚ), none, some 2, none, some 9] : List (Option ℚ)).getD 1 none = none) ∧
    draw_one_curve 400 200 1 9 (0, 4) [some 1, none, some 2, none, some 9]
        [some 0, some 1, some 2, some 3, some 4] 0 5 =
      draw_curve_walk
        (draw_curves_pt 400 200 1 9
          (window_y_range [some 0, some 1, some 2, some 3, some 4] 0 5 (0, 4)).1
          (window_y_range [some 0, some 1, some 2, some 3, some 4] 0 5 (0, 4)).2
          (fun i =>
            (([some (0 : ℚ), some 1, some 2, some 3, some 4] : List (Option ℚ)).getD i
              none).getD 0))
        [some 1, none, some 2, none, some 9]
        ((List.range' 0 (1 - 0)).filter
          (fun i =>
            (([some (0 : ℚ), some 1, some 2, some 3, some 4] : List (Option ℚ)).getD i
              none).isSome)) none ++
      draw_curve_walk
        (draw_curves_pt 400 200 1 9
          (window_y_range [some 0, some 1, some 2, some 3, some 4] 0 5 (0, 4)).1
          (window_y_range [some 0, some 1, some 2, some 3, some 4] 0 5 (0, 4)).2
          (fun i =>
            (([some (0 : ℚ), some 1, some 2, some 3, some 4] : List (Option ℚ)).getD i
              none).getD 0))
        [some 1, none, some 2, none, some 9]
        (((List.range' (1 + 1)
              (min 5 ([some (0 : ℚ), some 1, some 2, some 3, some 4] :
                List (Option ℚ)).length - (1 + 1))).filter
            (fun i =>
              (([some (0 : ℚ), some 1, some 2, some 3, some 4] : List (Option ℚ)).getD i
                none).isSome)) ++
          (if 5 < ([some (0 : ℚ), some 1, some 2, some 3, some 4] : List (Option ℚ)).length
           then
             (if (([some (0 : ℚ), some 1, some 2, some 3, some 4] : List (Option ℚ)).getD 5
                  none).isSome then [5]
              else [])
           else [])) none :=
  ⟨⟨by decide, by decide, by decide, by decide, by decide⟩,
   C2_null_gap_amended 400 200 1 9 (0, 4) [some 1, none, some 2, none, some 9]
     [some 0, some 1, some 2, some 3, some 4] 0 5 1 (by decide) (by decide) (by decide)
     (by decide) (by decide)⟩

/-- Helper for C1: the ceiling-division bounds of `num_rows`. -/
theorem num_rows_bounds (n k : Nat) (hk : 0 < k) (hn : 0 < n) :
    n ≤ num_rows n k * k ∧ (num_rows n k - 1) * k < n ∧ 1 ≤ num_rows n k := by
  have h1 : k * ((n + k - 1) / k) + (n + k - 1) % k = n + k - 1 := Nat.div_add_mod _ _
  have h2 : (n + k - 1) % k < k := Nat.mod_lt _ hk
  have hm1 : 1 ≤ (n + k - 1) / k := (Nat.one_le_div_iff hk).2 (by omega)
  show n ≤ (n + k - 1) / k * k ∧ ((n + k - 1) / k - 1) * k < n ∧ 1 ≤ (n + k - 1) / k
  have e2 : ((n + k - 1) / k - 1) * k + k = (n + k - 1) / k * k := by
    cases hm : (n + k - 1) / k with
    | zero => omega
    | succ mm => simp [hm, Nat.succ_mul]
  have h1' : (n + k - 1) / k * k + (n + k - 1) % k = n + k - 1 := by
    rw [Nat.mul_comm]; exact h1
  omega

/-- Helper for C1: the un-widened windows of the first `m` blocks
concatenate to the initial segment `[0, min (m*k) n)`. -/
theorem flatMap_windows (n k : Nat) :
    ∀ m, (List.range m).flatMap
        (fun i => List.range' (i * k) (min (i * k + k) n - i * k)) =
      List.range' 0 (min (m * k) n) := by
  intro m
  induction m with
  | zero => simp
  | succ m ih =>
      rw [List.range_succ, List.flatMap_append, ih]
      simp only [List.flatMap_cons, List.flatMap_nil, List.append_nil]
      have hmk : (m + 1) * k = m * k + k := by ring
      by_cases hc : n ≤ m * k
      · rw [show min (m * k) n = n from by omega,
          show min (m * k + k) n - m * k = 0 from by omega,
          show min ((m + 1) * k) n = n from by omega]
        simp
      · rw [show min (m * k) n = m * k from by omega]
        have h1 := List.range'_append 0 (m * k) (min (m * k + k) n - m * k) 1
        rw [show 0 + 1 * (m * k) = m * k from by omega] at h1
        rw [h1, show min (m * k + k) n - m * k + m * k = min ((m + 1) * k) n from by omega]

/-- C1: for depth data with `n > 0` samples and `k > 0` rows per block, the
paginator produces `num_rows = ⌈n / k⌉` blocks; block `i` covers the window
`[i*k, min((i+1)*k, n))`; the end is widened by exactly one sample iff the
block is not the last one and the sample at index `end` exists and is
non-null; and the un-widened windows concatenate to exactly `[0, n)` — no
gaps, no duplicated non-overlap samples. -/
theorem C1_row_block_pagination (depth_data : List (Option ℚ)) (k : Nat)
    (hk : 0 < k) (hn : 0 < depth_data.length) :
    ((num_rows depth_data.length k : ℤ) = ⌈(depth_data.length : ℚ) / (k : ℚ)⌉) ∧
    (∀ i, i < num_rows depth_data.length k →
        start_block_value i k = i * k ∧
        end_block_value depth_data.length k i = min ((i + 1) * k) depth_data.length) ∧
    (∀ i, i < num_rows depth_data.length k →
        (actual_end depth_data k i = end_block_value depth_data.length k i + 1 ↔
          (i ≠ num_rows depth_data.length k - 1 ∧
           (depth_data.getD (end_block_value depth_data.length k i) none).isSome = true))) ∧
    ((List.range (num_rows depth_data.length k)).flatMap
        (fun i => List.range' (start_block_value i k)
          (end_block_value depth_data.length k i - start_block_value i k)) =
      List.range depth_data.length) := by
  obtain ⟨hub, hlb, h1r⟩ := num_rows_bounds depth_data.length k hk hn
  refine ⟨?_, ?_, ?_, ?_⟩
  · rw [eq_comm, Int.ceil_eq_iff]
    constructor
    · rw [lt_div_iff₀ (by exact_mod_cast hk)]
      have hc : ((num_rows depth_data.length k : ℤ) : ℚ) - 1 =
          ((num_rows depth_data.length k - 1 : Nat) : ℚ) := by
        push_cast [Nat.cast_sub h1r]
        ring
      rw [hc]
      exact_mod_cast hlb
    · rw [div_le_iff₀ (by exact_mod_cast hk)]
      exact_mod_cast hub
  · intro i _
    refine ⟨rfl, ?_⟩
    rw [end_block_value, show (i + 1) * k = i * k + k from by ring]
  · intro i hi
    rw [actual_end]
    by_cases hlast : i = num_rows depth_data.length k - 1
    · rw [if_pos hlast]
      exact iff_of_false (by omega) (by tauto)
    · rw [if_neg hlast]
      by_cases hend : end_block_value depth_data.length k i < depth_data.length
      · rw [if_pos hend]
        by_cases hsome :
            (depth_data.getD (end_block_value depth_data.length k i) none).isSome = true
        · rw [if_pos hsome]
          exact iff_of_true rfl ⟨hlast, hsome⟩
        · rw [if_neg hsome]
          exact iff_of_false (by omega) (by tauto)
      · rw [if_neg hend]
        refine iff_of_false (by omega) ?_
        rintro ⟨-, habs⟩
        rw [List.getD_eq_default _ _ (by
          rw [end_block_value] at hend ⊢
          omega)] at habs
        simp at habs
  · simp only [start_block_value, end_block_value]
    rw [flatMap_windows depth_data.length k (num_rows depth_data.length k),
      show min (num_rows depth_data.length k * k) depth_data.length = depth_data.length
        from by omega,
      List.range_eq_range']

/-- Witness for C1 on five depth samples with two samples per block. -/
theorem C1_row_block_pagination_witness :
    (0 < 2 ∧ 0 < ([some (1 : ℚ), none, some 3, some 4, some 5] : List (Option ℚ)).length) ∧
    (((num_rows ([some (1 : ℚ), none, some 3, some 4, some 5] :
          List (Option ℚ)).length 2 : ℤ) =
        ⌈(([some (1 : ℚ), none, some 3, some 4, some 5] :
            List (Option ℚ)).length : ℚ) / (2 : ℚ)⌉) ∧
      (∀ i, i < num_rows ([some (1 : ℚ), none, some 3, some 4, some 5] :
          List (Option ℚ)).length 2 →
        start_block_value i 2 = i * 2 ∧
        end_block_value ([some (1 : ℚ), none, some 3, some 4, some 5] :
            List (Option ℚ)).length 2 i =
          min ((i + 1) * 2) ([some (1 : ℚ), none, some 3, some 4, some 5] :
            List (Option ℚ)).length) ∧
      (∀ i, i < num_rows ([some (1 : ℚ), none, some 3, some 4, some 5] :
          List (Option ℚ)).length 2 →
        (actual_end [some (1 : ℚ), none, some 3, some 4, some 5] 2 i =
            end_block_value ([some (1 : ℚ), none, some 3, some 4, some 5] :
              List (Option ℚ)).length 2 i + 1 ↔
          (i ≠ num_rows ([some (1 : ℚ), none, some 3, some 4, some 5] :
              List (Option ℚ)).length 2 - 1 ∧
           (([some (1 : ℚ), none, some 3, some 4, some 5] : List (Option ℚ)).getD
              (end_block_value ([some (1 : ℚ), none, some 3, some 4, some 5] :
                List (Option ℚ)).length 2 i) none).isSome = true))) ∧
      ((List.range (num_rows ([some (1 : ℚ), none, some 3, some 4, some 5] :
            List (Option ℚ)).length 2)).flatMap
          (fun i => List.range' (start_block_value i 2)
            (end_block_value ([some (1 : ℚ), none, some 3, some 4, some 5] :
                List (Option ℚ)).length 2 i - start_block_value i 2)) =
        List.range ([some (1 : ℚ), none, some 3, some 4, some 5] :
          List (Option ℚ)).length)) :=
  ⟨⟨by decide, by decide⟩,
   C1_row_block_pagination [some 1, none, some 3, some 4, some 5] 2 (by decide) (by decide)⟩

/-- Helper for C9: completing a future does not change which futures are
buffered or their order. -/
theorem mark_done_map_fst : ∀ (buf : List (Nat × Bool)) (j : Nat),
    (mark_done buf j).map Prod.fst = buf.map Prod.fst := by
  intro buf
  induction buf with
  | nil => intro j; rfl
  | cons e rest ih =>
      intro j
      cases j with
      | zero => simp [mark_done]
      | succ j => simp [mark_done, ih j]

/-- Helper for C9: flushing preserves the invariant shape — the output stays
an initial run of row indices and the buffer continues it. -/
theorem flush_buf_inv : ∀ (buf : List (Nat × Bool)) (out : List Nat),
    out = List.range out.length →
    buf.map Prod.fst = List.range' out.length buf.length →
    (flush_buf buf out).2 = List.range (flush_buf buf out).2.length ∧
    (flush_buf buf out).1.map Prod.fst =
      List.range' (flush_buf buf out).2.length (flush_buf buf out).1.length ∧
    (flush_buf buf out).2.length + (flush_buf buf out).1.length =
      out.length + buf.length := by
  intro buf
  induction buf with
  | nil =>
      intro out hout _hbuf
      have he : flush_buf [] out = ([], out) := rfl
      rw [he]
      exact ⟨hout, by simp, by simp⟩
  | cons e rest ih =>
      intro out hout hbuf
      obtain ⟨i, c⟩ := e
      rw [List.length_cons, List.range'_succ] at hbuf
      simp only [List.map_cons] at hbuf
      have hi : i = out.length := by
        have := List.head_eq_of_cons_eq hbuf
        simpa using this
      have hrest : rest.map Prod.fst = List.range' (out.length + 1) rest.length :=
        List.tail_eq_of_cons_eq hbuf
      cases c with
      | false =>
          refine ⟨hout, ?_, by simp [flush_buf]⟩
          simp only [flush_buf, List.map_cons, List.length_cons, List.range'_succ]
          rw [hi, hrest]
      | true =>
          have hout' : out ++ [i] = List.range (out ++ [i]).length := by
            rw [hi, List.length_append, List.length_singleton, List.range_succ, ← hout]
          have hbuf' : rest.map Prod.fst = List.range' (out ++ [i]).length rest.length := by
            rw [List.length_append, List.length_singleton, hrest]
          have := ih (out ++ [i]) hout' hbuf'
          simp only [flush_buf]
          refine ⟨this.1, this.2.1, ?_⟩
          have h3 := this.2.2
          simp only [List.length_append, List.length_cons, List.length_nil] at h3 ⊢
          omega

/-- Helper for C9: refilling the buffer preserves the invariant. -/
theorem fill_buf_inv (n width : Nat) (s : BufState) (h : BufInv n s) :
    BufInv n (fill_buf n width s) := by
  obtain ⟨h1, h2, h3, h4⟩ := h
  refine ⟨h1, ?_, ?_, ?_⟩
  · simp only [fill_buf, List.map_append, List.map_map, List.length_append,
      List.length_map, List.length_range']
    have hid : (Prod.fst ∘ fun i => (i, false)) = (id : Nat → Nat) := rfl
    rw [hid, List.map_id, h2]
    have hr := List.range'_append s.output.length s.buffer.length
      (min (width - s.buffer.length) (n - s.nextStart)) 1
    rw [show s.output.length + 1 * s.buffer.length = s.nextStart from by omega] at hr
    rw [hr]
    congr 1
    omega
  · simp only [fill_buf, List.length_append, List.length_map, List.length_range']
    omega
  · simp only [fill_buf]
    omega

/-- Helper for C9: one scheduler step preserves the invariant. -/
theorem step_buf_inv (n width : Nat) (s : BufState) (j : Nat) (h : BufInv n s) :
    BufInv n (step_buf n width s j) := by
  obtain ⟨h1, h2, h3, h4⟩ := h
  have hmark : (mark_done s.buffer j).map Prod.fst =
      List.range' s.output.length (mark_done s.buffer j).length := by
    rw [mark_done_map_fst, h2]
    congr 1
    have := congrArg List.length (mark_done_map_fst s.buffer j)
    simpa using this.symm
  have hf := flush_buf_inv (mark_done s.buffer j) s.output h1 hmark
  apply fill_buf_inv
  refine ⟨hf.1, hf.2.1, ?_, ?_⟩
  · have := hf.2.2
    have hlen := congrArg List.length (mark_done_map_fst s.buffer j)
    simp only [List.length_map] at hlen
    simp only [step_buf]
    omega
  · simp only [step_buf]
    omega

/-- Helper for C9: the invariant holds after any run of the machine. -/
theorem run_buffered_inv (n : Nat) (sched : List Nat) :
    BufInv n (run_buffered n sched) := by
  rw [run_buffered]
  have hinit : BufInv n (fill_buf n 2 ⟨0, [], []⟩) := by
    apply fill_buf_inv
    exact ⟨rfl, rfl, rfl, Nat.zero_le n⟩
  generalize fill_buf n 2 ⟨0, [], []⟩ = s at hinit ⊢
  induction sched generalizing s with
  | nil => exact hinit
  | cons j rest ih => exact ih _ (step_buf_inv n 2 s j hinit)

/-- C9: under any completion schedule, the `buffered(2)` pipeline emits row
chunks as an initial segment of `0, 1, 2, …` — strictly increasing row-index
order with no skips, regardless of the order in which renders complete.
Concretely, for 3 rows with the schedule that completes the second buffered
future before the first (out-of-order completion), the full ordered output
`[0, 1, 2]` is still produced. -/
theorem C9_ordered_emission :
    (∀ (n : Nat) (sched : List Nat), (run_buffered n sched).output <+: List.range n) ∧
    (run_buffered 3 [1, 0, 0]).output = [0, 1, 2] := by
  constructor
  · intro n sched
    obtain ⟨h1, -, h3, h4⟩ := run_buffered_inv n sched
    refine ⟨List.range' (run_buffered n sched).output.length
      (n - (run_buffered n sched).output.length), ?_⟩
    set L := (run_buffered n sched).output.length with hL
    have hr := List.range'_append 0 L (n - L) 1
    rw [show 0 + 1 * L = L from by omega] at hr
    conv_lhs => rw [h1]
    rw [List.range_eq_range', List.range_eq_range', hr]
    congr 1
    omega
  · decide

/-- C4 at the failing input: curves `["DEPT", "A", "B"]` with main parameter
index 0, explicit colours `["FF0000", "00FF00"]`, where curve `A` (index 1)
is entirely null (`get_curve_stats` returns `none`) while `B` (index 2) has
stats.  The first loop (stats-filtered) assigns `B` the plot colour
`hex_to_rgb "FF0000" = (255, 0, 0)` — the only polyline drawn; the second
loop (not stats-filtered) advances its counter on `A` as well, so the
legend maps curve `B` to the hex string `"00FF00"`.  The legend swatch for
the rendered curve `B` therefore shows a different colour than `B`'s
polyline, contradicting the claim. -/
theorem C4_color_mismatch_at_failing_input :
    (build_plot_colors (fun _ _ => 0) 0 ["DEPT", "A", "B"]
        (fun i => if i = 1 then none else some ((0 : ℚ), 1)) ["FF0000", "00FF00"]).2 =
      [(255, 0, 0)] ∧
    (build_plot_colors (fun _ _ => 0) 0 ["DEPT", "A", "B"]
        (fun i => if i = 1 then none else some ((0 : ℚ), 1)) ["FF0000", "00FF00"]).1 =
      ["FF0000", "00FF00"] ∧
    (build_curve_to_color (fun _ _ => 0) 0 ["DEPT", "A", "B"]
        ["FF0000", "00FF00"]).lookup 2 = some "00FF00" ∧
    hex_to_rgb "00FF00" ≠ (255, 0, 0) := by decide

/-- Helper for C6: IEEE `<` is irreflexive (also on NaN and infinities). -/
theorem f64_lt_irrefl (x : F64) : f64_lt x x = false := by
  cases x <;> simp [f64_lt]

/-- Helper for C6: a failed validity guard yields no tick pixels. -/
theorem curve_tick_pixels_guard_false (width : Nat) (x_min x_max : F64)
    (hguard : (f64_lt x_min x_max && f64_is_finite x_max && f64_is_finite x_min) = false) :
    curve_tick_pixels width x_min x_max = [] := by
  cases x_min <;> cases x_max <;> simp_all [curve_tick_pixels]

/-- Helper for C6: a failed validity guard draws no scale ticks. -/
theorem scale_ticks_guard_false (x_min x_max : F64)
    (hguard : (f64_lt x_min x_max && f64_is_finite x_max && f64_is_finite x_min) = false) :
    scale_ticks_for_curve x_min x_max = ([], []) := by
  cases x_min <;> cases x_max <;> simp_all [scale_ticks_for_curve]

/-- C6: for a degenerate value range (`max = min`, or a non-finite bound)
neither `calculate_scale_tick_positions` nor `draw_scales` emits a tick for
the curve; ticks come out only when `max > min` and both bounds are finite;
and whenever the guard passes, the range the code divides by is non-zero,
so no division by zero is performed. -/
theorem C6_degenerate_range_no_ticks (width : Nat) (x_min x_max : F64) :
    ((x_max = x_min ∨ f64_is_finite x_max = false ∨ f64_is_finite x_min = false) →
        curve_tick_pixels width x_min x_max = [] ∧
        scale_ticks_for_curve x_min x_max = ([], [])) ∧
    ((curve_tick_pixels width x_min x_max ≠ [] ∨
        scale_ticks_for_curve x_min x_max ≠ ([], [])) →
      f64_lt x_min x_max = true ∧ f64_is_finite x_min = true ∧
        f64_is_finite x_max = true) ∧
    (∀ a b : ℚ, x_min = F64.val a → x_max = F64.val b → f64_lt x_min x_max = true →
        b - a ≠ 0) := by
  refine ⟨?_, ?_, ?_⟩
  · intro h
    have hguard : (f64_lt x_min x_max && f64_is_finite x_max && f64_is_finite x_min)
        = false := by
      rcases h with h | h | h
      · rw [h, f64_lt_irrefl]; simp
      · rw [h]; simp
      · rw [h]; simp
    exact ⟨curve_tick_pixels_guard_false width x_min x_max hguard,
      scale_ticks_guard_false x_min x_max hguard⟩
  · intro h
    cases hguard : (f64_lt x_min x_max && f64_is_finite x_max && f64_is_finite x_min) with
    | false =>
        exfalso
        rcases h with h | h
        · exact h (curve_tick_pixels_guard_false width x_min x_max hguard)
        · exact h (scale_ticks_guard_false x_min x_max hguard)
    | true =>
        rw [Bool.and_eq_true, Bool.and_eq_true] at hguard
        exact ⟨hguard.1.1, hguard.2, hguard.1.2⟩
  · intro a b hmin hmax hlt
    subst hmin
    subst hmax
    have hab : a < b := by simpa [f64_lt] using hlt
    exact sub_ne_zero.mpr (ne_of_gt hab)

/-- Witness for C6: the degenerate range `max = min = 5` yields no ticks
from either tick routine. -/
theorem C6_degenerate_range_no_ticks_witness :
    curve_tick_pixels 300 (F64.val 5) (F64.val 5) = [] ∧
    scale_ticks_for_curve (F64.val 5) (F64.val 5) = ([], []) :=
  (C6_degenerate_range_no_ticks 300 (F64.val 5) (F64.val 5)).1 (Or.inl rfl)

/-- Helper for C3: `f64::round` of a natural number is itself. -/
theorem rustRound_natCast (n : ℕ) : rustRound (n : ℚ) = n := by
  rw [rustRound, if_pos (by positivity), Int.floor_eq_iff]
  constructor
  · push_cast
    linarith
  · push_cast
    linarith

/-- Helper for C3: the decade of the range (0, 47). -/
theorem floorLog10_0_47 : floorLog10 ((47 : ℚ) - 0) = 1 := by
  rw [show ((47 : ℚ) - 0) = 47 from by norm_num, floorLog10, if_pos (by norm_num),
    show ⌊(47 : ℚ)⌋ = 47 from by norm_num]
  decide

/-- Helper for C3: `major_step` of the range (0, 47). -/
theorem major_step_0_47 : major_step 0 47 = 10 := by
  rw [major_step, floorLog10_0_47, zpow_one]

/-- Helper for C3: `minor_step` of the range (0, 47). -/
theorem minor_step_0_47 : minor_step 0 47 = 1 := by
  rw [minor_step, floorLog10_0_47, show (1 : ℤ) - 1 = 0 from by norm_num, zpow_zero]

/-- Helper for C3: the first major tick of (0, 47) is 0 itself. -/
theorem first_major_0_47 : first_major 0 47 = 0 := by
  rw [first_major, major_step_0_47, zero_div, Int.ceil_zero]
  norm_num

/-- Helper for C3: the first minor tick candidate of (0, 47) is 0. -/
theorem first_minor_0_47 : first_minor 0 47 = 0 := by
  rw [first_minor, minor_step_0_47, zero_div, Int.ceil_zero]
  norm_num

/-- Helper for C3: `filter` commutes with `map`. -/
theorem filter_map_comm {α β : Type} (f : α → β) (p : β → Bool) (l : List α) :
    (l.map f).filter p = (l.filter (fun a => p (f a))).map f := by
  induction l with
  | nil => rfl
  | cons a t ih =>
      simp only [List.map_cons, List.filter_cons]
      cases p (f a) <;> simp [ih]

/-- Helper for C3: the major-tick loop of (0, 47) visits 0, 10, 20, 30, 40. -/
theorem major_ticks_0_47 : major_tick_values 0 47 = [0, 10, 20, 30, 40] := by
  rw [major_tick_values, first_major_0_47, major_step_0_47, ticks_from,
    if_pos ⟨by norm_num, by norm_num⟩,
    show ⌊((47 : ℚ) - 0) / 10⌋ = 4 from by norm_num,
    show ((4 : ℤ).toNat + 1) = 5 from rfl,
    show List.range 5 = [0, 1, 2, 3, 4] from rfl]
  simp only [List.map]
  norm_num

/-- Helper for C3: all five major loop values are drawn (each normalized
position lies in [0, 1]). -/
theorem drawn_major_0_47 : drawn_major_values 0 47 = [0, 10, 20, 30, 40] := by
  rw [drawn_major_values, major_ticks_0_47]
  apply List.filter_eq_self.mpr
  intro v hv
  fin_cases hv <;>
    (rw [Bool.and_eq_true, decide_eq_true_eq, decide_eq_true_eq]; constructor <;> norm_num)

/-- Helper for C3: the excluded minor indices are 0, 10, 20, 30, 40. -/
theorem major_positions_0_47 : major_positions 0 47 = [0, 10, 20, 30, 40] := by
  rw [major_positions, drawn_major_0_47, minor_step_0_47]
  simp only [List.map, div_one]
  rw [show ((0 : ℚ)) = ((0 : ℕ) : ℚ) from by norm_num,
    show ((10 : ℚ)) = ((10 : ℕ) : ℚ) from by norm_num,
    show ((20 : ℚ)) = ((20 : ℕ) : ℚ) from by norm_num,
    show ((30 : ℚ)) = ((30 : ℕ) : ℚ) from by norm_num,
    show ((40 : ℚ)) = ((40 : ℕ) : ℚ) from by norm_num,
    rustRound_natCast, rustRound_natCast, rustRound_natCast, rustRound_natCast,
    rustRound_natCast]
  rfl

/-- Helper for C3: the minor-tick loop of (0, 47) visits 0, 1, …, 47. -/
theorem minor_ticks_0_47 :
    minor_tick_values 0 47 = (List.range 48).map (Nat.cast : ℕ → ℚ) := by
  rw [minor_tick_values, first_minor_0_47, minor_step_0_47, ticks_from,
    if_pos ⟨by norm_num, by norm_num⟩,
    show ⌊((47 : ℚ) - 0) / 1⌋ = 47 from by norm_num,
    show ((47 : ℤ).toNat + 1) = 48 from rfl]
  have hfun : (fun (i : ℕ) => (0 : ℚ) + (i : ℚ) * 1) = (Nat.cast : ℕ → ℚ) := by
    funext i
    rw [zero_add, mul_one]
  rw [hfun]

/-- Helper for C3: the drawn minor ticks of (0, 47) are exactly the
integers 1..47 that are not multiples of 10. -/
theorem drawn_minor_0_47 :
    drawn_minor_values 0 47 =
      ((List.range 48).filter (fun n => !(n % 10 == 0))).map (Nat.cast : ℕ → ℚ) := by
  rw [drawn_minor_values, minor_ticks_0_47, minor_step_0_47, filter_map_comm]
  congr 1
  apply List.filter_congr
  intro n hn
  have h48 : n < 48 := List.mem_range.mp hn
  have hmem : (([0, 10, 20, 30, 40] : List ℤ).contains ((n : ℕ) : ℤ)) = (n % 10 == 0) := by
    by_cases h10 : n % 10 = 0
    · obtain ⟨c, rfl⟩ : ∃ c, n = 10 * c := ⟨n / 10, by omega⟩
      have hc : c < 5 := by omega
      interval_cases c <;> decide
    · have hr : (n % 10 == 0) = false := by
        simpa using h10
      rw [hr]
      simp only [List.contains, List.elem_eq_mem, List.mem_cons, List.not_mem_nil,
        or_false, decide_eq_false_iff_not]
      push_neg
      refine ⟨?_, ?_, ?_, ?_, ?_⟩ <;> omega
  have hc1 : decide ((0 : ℚ) ≤ ((n : ℚ) - 0) / (47 - 0)) = true := by
    rw [decide_eq_true_eq, show ((n : ℚ) - 0) / (47 - 0) = (n : ℚ) / 47 from by norm_num]
    positivity
  have hc2 : decide (((n : ℚ) - 0) / (47 - 0) ≤ 1) = true := by
    rw [decide_eq_true_eq, show ((n : ℚ) - 0) / (47 - 0) = (n : ℚ) / 47 from by norm_num,
      div_le_one (by norm_num)]
    exact_mod_cast (by omega : n ≤ 47)
  rw [div_one, rustRound_natCast, major_positions_0_47, hc1, hc2, hmem]
  simp

/-- C3 counterexample: the code draws a major tick at value 0 for the range
(0, 47) — `first_major = ceil(0/10)*10 = 0 ≤ 47` starts the loop at 0 and
`t = 0` passes the `[0, 1]` check — so "the set of major tick values is
exactly {10, 20, 30, 40}" is false as stated. -/
theorem C3_tick_example_counterexample :
    (0 : ℚ) ∈ drawn_major_values 0 47 ∧ (0 : ℚ) ∉ ([10, 20, 30, 40] : List ℚ) := by
  rw [drawn_major_0_47]
  constructor
  · simp
  · simp only [List.mem_cons, List.not_mem_nil, or_false]
    push_neg
    refine ⟨?_, ?_, ?_, ?_⟩ <;> norm_num

/-- C3 (amended): for the value range (0, 47), decade = 1, major_step = 10,
minor_step = 1, the first major tick is `ceil(min/major_step)*major_step = 0`,
the drawn major ticks are exactly 0, 10, 20, 30, 40 (the claim's list plus
the tick at 0), and the drawn minor ticks are exactly the integers 1..47
that are not multiples of 10. -/
theorem C3_tick_example_amended :
    floorLog10 ((47 : ℚ) - 0) = 1 ∧
    major_step 0 47 = 10 ∧
    minor_step 0 47 = 1 ∧
    first_major 0 47 = 0 ∧
    drawn_major_values 0 47 = [0, 10, 20, 30, 40] ∧
    drawn_minor_values 0 47 =
      ((List.range 48).filter (fun n => !(n % 10 == 0))).map (Nat.cast : ℕ → ℚ) :=
  ⟨floorLog10_0_47, major_step_0_47, minor_step_0_47, first_major_0_47,
   drawn_major_0_47, drawn_minor_0_47⟩

end Lasplot
